import Mathlib

/-!
Shallow embedding of the trust / confirmation / status-aggregation core of
`src/index.ts` (the coc-eslint client extension).

Conventions of the embedding:
* JS `Map` objects and plain objects used as string-keyed dictionaries are
  modelled as insertion-ordered association lists `List (String × α)`;
  `Map.set` replaces an existing binding in place (preserving insertion
  order) or appends a fresh one, exactly like the JS `Map`.
* JS `Set` objects are insertion-ordered `List String` without duplicates
  (`add` appends only when absent, like the JS `Set`).
* The module-level mutable variables of `index.ts`
  (`sessionState`, `disabledLibraries`, `eslintExecutionState`,
  `eslintAlwaysAllowExecutionState`, `libraryPath2ExecutionInfo`,
  `workspaceFolder2ExecutionInfos`, `resource2ResourceInfo`) are gathered
  into one `GlobalState` record that is threaded explicitly.
* An `ExecutionInfo` object is referenced in JS from three places
  (`libraryPath2ExecutionInfo`, `workspaceFolder2ExecutionInfos`,
  `ResourceInfo.executionInfo`).  The embedding keeps the object itself
  only in `libraryPath2ExecutionInfo` and stores its key (the library
  path) in the two other places, so aliased mutation is a single update
  of `libraryPath2ExecutionInfo`.
* External editor services that can throw (`Languages.createDiagnosticCollection`,
  `Workspace.getWorkspaceFolder`, the `DiagnosticCollection` methods used by
  `clearInfo`, and the UI refresh `updateStatusBarAndDiagnostics`) are
  abstracted into an `Env` of `Except`-valued operations, so the
  `try/catch` of the `ConfirmExecution` handler is observable.
-/

/-- `Status` enum, src/index.ts lines 216-223. -/
inductive Status where
  | ok
  | warn
  | error
  | confirmationPending
  | executionDisabled
  | executionDenied
deriving DecidableEq, Repr

/-- `ConfirmExecutionResult` enum, src/index.ts lines 291-296. -/
inductive ConfirmExecutionResult where
  | denied
  | confirmationPending
  | disabled
  | approved
deriving DecidableEq, Repr

namespace ConfirmExecutionResult

/-- `ConfirmExecutionResult.toStatus`, src/index.ts lines 298-311. -/
def toStatus : ConfirmExecutionResult → Status
  | denied => Status.executionDenied
  | confirmationPending => Status.confirmationPending
  | disabled => Status.executionDisabled
  | approved => Status.ok

end ConfirmExecutionResult

/-- `ConfirmationSelection` enum, src/index.ts lines 189-194. -/
inductive ConfirmationSelection where
  | deny
  | disable
  | allow
  | alwaysAllow
deriving DecidableEq, Repr

/-- `'local' | 'global'` scope of `ExecutionParams`, src/index.ts line 283. -/
inductive ExecutionScope where
  | localScope
  | globalScope
deriving DecidableEq, Repr

/-- `ExecutionParams`, src/index.ts lines 282-285. -/
structure ExecutionParams where
  scope : ExecutionScope
  libraryPath : String
deriving DecidableEq, Repr

/-- `ConfirmExecutionParams`, src/index.ts lines 287-289. -/
structure ConfirmExecutionParams where
  scope : ExecutionScope
  libraryPath : String
  uri : String
deriving DecidableEq, Repr

/-- The `ExecutionParams` part of a `ConfirmExecutionParams`. -/
def ConfirmExecutionParams.toExecutionParams (p : ConfirmExecutionParams) : ExecutionParams :=
  { scope := p.scope, libraryPath := p.libraryPath }

/-- First binding for a key in a JS-map association list (`Map.get`,
    or reading a property of a dictionary object; `none` is JS `undefined`). -/
def listLookup {α : Type} (l : List (String × α)) (k : String) : Option α :=
  match l with
  | [] => none
  | (k', v) :: rest => if k' = k then some v else listLookup rest k

/-- `Map.set` / property assignment: replace the binding in place when the key
    is present (keeping insertion order), otherwise append it. -/
def listSet {α : Type} (l : List (String × α)) (k : String) (v : α) : List (String × α) :=
  match l with
  | [] => [(k, v)]
  | (k', v') :: rest => if k' = k then (k, v) :: rest else (k', v') :: listSet rest k v

/-- `Map.delete` / `delete obj[k]`: drop the binding for a key. -/
def listErase {α : Type} (l : List (String × α)) (k : String) : List (String × α) :=
  match l with
  | [] => []
  | (k', v') :: rest => if k' = k then rest else (k', v') :: listErase rest k

/-- JS `Set.has`. -/
def setMem (s : List String) (k : String) : Bool :=
  match s with
  | [] => false
  | k' :: rest => if k' = k then true else setMem rest k

/-- JS `Set.add`: append when absent. -/
def setAdd (s : List String) (k : String) : List String :=
  if setMem s k then s else s ++ [k]

/-- JS `Set.delete`. -/
def setDelete (s : List String) (k : String) : List String :=
  match s with
  | [] => []
  | k' :: rest => if k' = k then rest else k' :: setDelete rest k

/-- A `DiagnosticCollection` (coc.nvim), modelled as the map from document
    uri to the diagnostic messages currently set for it. -/
abbrev DiagnosticCollection : Type := List (String × List String)

/-- `ExecutionInfo`, src/index.ts lines 430-436.  The `codeActionProvider`
    field only records whether a provider registration is held (`Disposable`
    presence); disposing it does not reset the field in the source, and the
    embedding mirrors that. -/
structure ExecutionInfo where
  params : ExecutionParams
  result : ConfirmExecutionResult
  editorErrorUri : Option String
  diagnostics : DiagnosticCollection
  codeActionProvider : Bool
deriving DecidableEq, Repr

/-- `ResourceInfo`, src/index.ts lines 423-426.  `executionInfo` holds the
    library path keying the referenced `ExecutionInfo` (see module comment). -/
structure ResourceInfo where
  status : Status
  executionInfo : Option String
deriving DecidableEq, Repr

/-- The module-level mutable state of src/index.ts relevant to the trust
    core: lines 414-439. -/
structure GlobalState where
  /-- `sessionState : Map<string, ExecutionParams>`, line 420. -/
  sessionState : List (String × ExecutionParams)
  /-- `disabledLibraries : Set<string>`, line 421. -/
  disabledLibraries : List String
  /-- `eslintExecutionState.libs`, lines 278-280 and 415. -/
  eslintExecutionLibs : List (String × Bool)
  /-- `eslintAlwaysAllowExecutionState`, line 418. -/
  eslintAlwaysAllowExecutionState : Bool
  /-- `libraryPath2ExecutionInfo : Map<string, ExecutionInfo>`, line 438. -/
  libraryPath2ExecutionInfo : List (String × ExecutionInfo)
  /-- `workspaceFolder2ExecutionInfos : Map<string, ExecutionInfo[]>`,
      line 439; the `ExecutionInfo[]` holds the library-path keys of the
      referenced records, in push order. -/
  workspaceFolder2ExecutionInfos : List (String × List String)
  /-- `resource2ResourceInfo : Map<string, ResourceInfo>`, line 427. -/
  resource2ResourceInfo : List (String × ResourceInfo)
deriving DecidableEq, Repr

/-- `clearInfo`, src/index.ts lines 489-494: empty the diagnostic collection
    and dispose the code-action provider (disposal does not clear the field). -/
def clearInfo (info : ExecutionInfo) : ExecutionInfo :=
  { info with diagnostics := [] }

/-- `clearDiagnosticState`, src/index.ts lines 496-502. -/
def clearDiagnosticState (st : GlobalState) (libraryPath : String) : GlobalState :=
  match listLookup st.libraryPath2ExecutionInfo libraryPath with
  | none => st
  | some info =>
      { st with libraryPath2ExecutionInfo := listSet st.libraryPath2ExecutionInfo libraryPath (clearInfo info) }

/-- `clearAllDiagnosticState`, src/index.ts lines 504-509. -/
def clearAllDiagnosticState (st : GlobalState) : GlobalState :=
  { st with libraryPath2ExecutionInfo := st.libraryPath2ExecutionInfo.map (fun kv => (kv.1, clearInfo kv.2)) }

/-- `updateExecutionInfo`, src/index.ts lines 441-455. -/
def updateExecutionInfo (st : GlobalState) (params : ExecutionParams)
    (result : ConfirmExecutionResult) : GlobalState :=
  match listLookup st.libraryPath2ExecutionInfo params.libraryPath with
  | none =>
      let value : ExecutionInfo :=
        { params := { libraryPath := params.libraryPath, scope := params.scope },
          result := result,
          editorErrorUri := none,
          codeActionProvider := false,
          diagnostics := [] }
      { st with libraryPath2ExecutionInfo := listSet st.libraryPath2ExecutionInfo params.libraryPath value }
  | some value =>
      let value' : ExecutionInfo := { value with result := result }
      { st with libraryPath2ExecutionInfo := listSet st.libraryPath2ExecutionInfo params.libraryPath value' }

/-- Fallible external editor services used inside the `ConfirmExecution`
    handler's `try` block (coc.nvim API; out-of-scope collaborators whose
    only relevant behaviour is returning a value or throwing). -/
structure Env where
  /-- The `DiagnosticCollection.clear` / `Disposable.dispose` calls performed
      by `clearInfo` (src/index.ts lines 490-493). -/
  clearDiag : Except String Unit
  /-- `Languages.createDiagnosticCollection()` (line 1422). -/
  newDiagnostics : Except String Unit
  /-- `Workspace.getWorkspaceFolder(uri)` (line 1426): folder uri, if any. -/
  getWorkspaceFolder : String → Except String (Option String)
  /-- `updateStatusBarAndDiagnostics()` (line 1449). -/
  updateUI : Except String Unit

/-- An environment in which no external service throws and no resource
    belongs to a workspace folder. -/
def okEnv : Env :=
  { clearDiag := Except.ok (),
    newDiagnostics := Except.ok (),
    getWorkspaceFolder := fun _ => Except.ok none,
    updateUI := Except.ok () }

/-- `clearDiagnosticState` as called from inside the handler's `try` block:
    when an `ExecutionInfo` is present its collection is cleared, an
    operation that can throw. -/
def clearDiagnosticStateE (env : Env) (st : GlobalState) (libraryPath : String) :
    Except (String × GlobalState) GlobalState :=
  match listLookup st.libraryPath2ExecutionInfo libraryPath with
  | none => Except.ok st
  | some _ =>
      match env.clearDiag with
      | Except.error msg => Except.error (msg, st)
      | Except.ok _ => Except.ok (clearDiagnosticState st libraryPath)

/-- The decision chain of the `ConfirmExecution` handler, src/index.ts
    lines 1402-1414: disabled set, then the stored per-library decision,
    then the global always-allow flag; `none` stands for the
    still-unassigned `result` variable. -/
def confirmDecide (env : Env) (st : GlobalState) (p : ConfirmExecutionParams) :
    Except (String × GlobalState) (GlobalState × Option ConfirmExecutionResult) :=
  if setMem st.disabledLibraries p.libraryPath then
    Except.ok (st, some ConfirmExecutionResult.disabled)
  else
    match listLookup st.eslintExecutionLibs p.libraryPath with
    | some b =>
        match clearDiagnosticStateE env st p.libraryPath with
        | Except.error e => Except.error e
        | Except.ok st' =>
            Except.ok (st', some (if b then ConfirmExecutionResult.approved
                                  else ConfirmExecutionResult.denied))
    | none =>
        if st.eslintAlwaysAllowExecutionState then
          match clearDiagnosticStateE env st p.libraryPath with
          | Except.error e => Except.error e
          | Except.ok st' => Except.ok (st', some ConfirmExecutionResult.approved)
        else
          Except.ok (st, none)

/-- The tail of the `ConfirmExecution` handler's `try` block,
    src/index.ts lines 1439-1449: update or create the `ResourceInfo` for
    `params.uri` (an existing one keeps its `executionInfo` reference and
    only gets a new status), then refresh the UI. -/
def confirmFinish (env : Env) (p : ConfirmExecutionParams)
    (result : ConfirmExecutionResult) (st : GlobalState) :
    Except (String × GlobalState) GlobalState :=
  match listLookup st.resource2ResourceInfo p.uri with
  | none =>
      match env.updateUI with
      | Except.error msg =>
          Except.error (msg, { st with resource2ResourceInfo := listSet st.resource2ResourceInfo p.uri { status := result.toStatus, executionInfo := some p.libraryPath } })
      | Except.ok _ =>
          Except.ok { st with resource2ResourceInfo := listSet st.resource2ResourceInfo p.uri { status := result.toStatus, executionInfo := some p.libraryPath } }
  | some resourceInfo =>
      match env.updateUI with
      | Except.error msg =>
          Except.error (msg, { st with resource2ResourceInfo := listSet st.resource2ResourceInfo p.uri { resourceInfo with status := result.toStatus } })
      | Except.ok _ =>
          Except.ok { st with resource2ResourceInfo := listSet st.resource2ResourceInfo p.uri { resourceInfo with status := result.toStatus } }

/-- The fresh `ExecutionInfo` built by the handler on first sight of a
    library, src/index.ts lines 1418-1424. -/
def newExecutionInfo (p : ConfirmExecutionParams) (result : ConfirmExecutionResult) : ExecutionInfo :=
  { params := p.toExecutionParams,
    result := result,
    codeActionProvider := false,
    diagnostics := [],
    editorErrorUri := none }

/-- The record-keeping part of the `ConfirmExecution` handler,
    src/index.ts lines 1416-1438: create the `ExecutionInfo` when absent
    (appending it to its workspace folder's list) or update its `result` in
    place, then `confirmFinish` (resource status plus UI refresh). -/
def confirmRecord (env : Env) (st : GlobalState) (p : ConfirmExecutionParams)
    (result : ConfirmExecutionResult) : Except (String × GlobalState) GlobalState :=
  match listLookup st.libraryPath2ExecutionInfo p.libraryPath with
  | none =>
      match env.newDiagnostics with
      | Except.error msg => Except.error (msg, st)
      | Except.ok _ =>
          match env.getWorkspaceFolder p.uri with
          | Except.error msg => Except.error (msg, { st with libraryPath2ExecutionInfo := listSet st.libraryPath2ExecutionInfo p.libraryPath (newExecutionInfo p result) })
          | Except.ok none => confirmFinish env p result { st with libraryPath2ExecutionInfo := listSet st.libraryPath2ExecutionInfo p.libraryPath (newExecutionInfo p result) }
          | Except.ok (some folderUri) =>
              confirmFinish env p result
                { st with libraryPath2ExecutionInfo := listSet st.libraryPath2ExecutionInfo p.libraryPath (newExecutionInfo p result),
                          workspaceFolder2ExecutionInfos := listSet st.workspaceFolder2ExecutionInfos folderUri (((listLookup st.workspaceFolder2ExecutionInfos folderUri).getD []) ++ [p.libraryPath]) }
  | some executionInfo =>
      confirmFinish env p result
        { st with libraryPath2ExecutionInfo := listSet st.libraryPath2ExecutionInfo p.libraryPath { executionInfo with result := result } }

/-- The body of the `ConfirmExecution` handler's `try` block,
    src/index.ts lines 1399-1450.  An error carries the state as mutated so
    far (JS mutations before the throw persist). -/
def confirmInner (env : Env) (st : GlobalState) (p : ConfirmExecutionParams) :
    Except (String × GlobalState) (GlobalState × ConfirmExecutionResult) :=
  match confirmDecide env
      { st with sessionState := listSet st.sessionState p.libraryPath p.toExecutionParams } p with
  | Except.error e => Except.error e
  | Except.ok (st, result?) =>
      match confirmRecord env st p (result?.getD ConfirmExecutionResult.confirmationPending) with
      | Except.error e => Except.error e
      | Except.ok st => Except.ok (st, result?.getD ConfirmExecutionResult.confirmationPending)

/-- The complete `ConfirmExecution` handler, src/index.ts lines 1397-1455:
    the `try` body with its `catch` converting any exception to `denied`.
    (The surrounding single-slot semaphore serializes calls; a single call
    is modelled.) -/
def confirmExec (env : Env) (st : GlobalState) (p : ConfirmExecutionParams) :
    GlobalState × ConfirmExecutionResult :=
  match confirmInner env st p with
  | Except.ok r => r
  | Except.error (_, st') => (st', ConfirmExecutionResult.denied)

/-- The empty startup state (no persisted decisions). -/
def emptyState : GlobalState :=
  { sessionState := [],
    disabledLibraries := [],
    eslintExecutionLibs := [],
    eslintAlwaysAllowExecutionState := false,
    libraryPath2ExecutionInfo := [],
    workspaceFolder2ExecutionInfos := [],
    resource2ResourceInfo := [] }

/-- The `result`s of the `ExecutionInfo`s referenced by a list of
    library-path keys (a `workspaceFolder2ExecutionInfos` entry). -/
def resultsOf (st : GlobalState) (paths : List String) : List ConfirmExecutionResult :=
  paths.filterMap (fun l => (listLookup st.libraryPath2ExecutionInfo l).map ExecutionInfo.result)

/-- The `result`s of all tracked `ExecutionInfo`s
    (`libraryPath2ExecutionInfo.values()`, insertion order). -/
def allResults (st : GlobalState) : List ConfirmExecutionResult :=
  st.libraryPath2ExecutionInfo.map (fun kv => kv.2.result)

/-- The reduction loop of `findApplicableStatus`, src/index.ts lines 889-901:
    the running `result` starts `undefined`; the first record seeds it; a
    later `confirmationPending` sets it and breaks; a later `denied` or
    `disabled` sets it and continues; anything else leaves it. -/
def applicableResult :
    Option ConfirmExecutionResult → List ConfirmExecutionResult → Option ConfirmExecutionResult
  | res, [] => res
  | none, r :: rest => applicableResult (some r) rest
  | some cur, r :: rest =>
      if r = ConfirmExecutionResult.confirmationPending then
        some ConfirmExecutionResult.confirmationPending
      else if r = ConfirmExecutionResult.denied ∨ r = ConfirmExecutionResult.disabled then
        applicableResult (some r) rest
      else
        applicableResult (some cur) rest

/-- Line 902: `result !== undefined ? ConfirmExecutionResult.toStatus(result) : Status.ok`. -/
def statusOfScan : Option ConfirmExecutionResult → Status
  | some r => r.toStatus
  | none => Status.ok

/-- `findApplicableStatus`, src/index.ts lines 874-903.  `wsFolder` models
    `Workspace.getWorkspaceFolder` (editor uri → workspace-folder uri);
    `editor` is the uri of the focused document, if any. -/
def findApplicableStatus (wsFolder : String → Option String) (st : GlobalState)
    (editor : Option String) : Status × Bool :=
  match editor with
  | none => (statusOfScan (applicableResult none (allResults st)), false)
  | some uri =>
      match listLookup st.resource2ResourceInfo uri with
      | some resourceInfo => (resourceInfo.status, true)
      | none =>
          let candidates :=
            match wsFolder uri with
            | some folderUri =>
                match listLookup st.workspaceFolder2ExecutionInfos folderUri with
                | some paths => resultsOf st paths
                | none => allResults st
            | none => allResults st
          (statusOfScan (applicableResult none candidates), false)

/-- `askForLibraryConfirmation`, src/index.ts lines 511-571.  The interactive
    dialog is modelled by its outcome `choice` (`none` = the user dismissed
    it without selecting).  The returned `Bool` records whether the `update`
    callback — the status-changed signal — was invoked. -/
def askForLibraryConfirmation (st : GlobalState) (params : ExecutionParams)
    (choice : Option ConfirmationSelection) : GlobalState × Bool :=
  let st := { st with sessionState := listSet st.sessionState params.libraryPath params }
  match choice with
  | none => (st, false)
  | some ConfirmationSelection.disable =>
      let st := { st with disabledLibraries := setAdd st.disabledLibraries params.libraryPath }
      let st := updateExecutionInfo st params ConfirmExecutionResult.disabled
      (clearDiagnosticState st params.libraryPath, true)
  | some ConfirmationSelection.allow =>
      let st := { st with disabledLibraries := setDelete st.disabledLibraries params.libraryPath }
      let st := { st with eslintExecutionLibs := listSet st.eslintExecutionLibs params.libraryPath true }
      let st := updateExecutionInfo st params ConfirmExecutionResult.approved
      (clearDiagnosticState st params.libraryPath, true)
  | some ConfirmationSelection.deny =>
      let st := { st with disabledLibraries := setDelete st.disabledLibraries params.libraryPath }
      let st := { st with eslintExecutionLibs := listSet st.eslintExecutionLibs params.libraryPath false }
      let st := updateExecutionInfo st params ConfirmExecutionResult.denied
      (clearDiagnosticState st params.libraryPath, true)
  | some ConfirmationSelection.alwaysAllow =>
      let st := { st with disabledLibraries := setDelete st.disabledLibraries params.libraryPath }
      let st := { st with eslintAlwaysAllowExecutionState := true }
      let st := updateExecutionInfo st params ConfirmExecutionResult.approved
      (clearAllDiagnosticState st, true)

/-- The reset modes offered by `resetLibraryConfirmations` (src/index.ts
    lines 577-583; the `allConfirmed` / `allRejected` kinds exist in the
    quick-pick item type but are never offered nor handled specially). -/
inductive ResetKind where
  | all
  | alwaysAllow
  | session
deriving DecidableEq, Repr

/-- `resetLibraryConfirmations`, src/index.ts lines 573-617, after the user
    picked a reset kind in the quick-pick.  `redirectChoice` is the outcome
    of the confirmation dialog shown when the `session` mode redirects into
    `askForLibraryConfirmation` for the single session library.  The
    returned `Bool` records whether the status-changed callback ran. -/
def resetLibraryConfirmations (st : GlobalState) (kind : ResetKind)
    (redirectChoice : Option ConfirmationSelection) : GlobalState × Bool :=
  match kind with
  | ResetKind.all =>
      ({ st with eslintExecutionLibs := [], eslintAlwaysAllowExecutionState := false, disabledLibraries := [], libraryPath2ExecutionInfo := [], resource2ResourceInfo := [], workspaceFolder2ExecutionInfos := [] }, true)
  | ResetKind.alwaysAllow =>
      ({ st with eslintAlwaysAllowExecutionState := false, disabledLibraries := [], libraryPath2ExecutionInfo := [], resource2ResourceInfo := [], workspaceFolder2ExecutionInfos := [] }, true)
  | ResetKind.session =>
      match st.sessionState with
      | [(_, param)] => askForLibraryConfirmation st param redirectChoice
      | _ =>
          ({ st with eslintExecutionLibs := st.sessionState.foldl (fun libs kv => listErase libs kv.1) st.eslintExecutionLibs, disabledLibraries := [], libraryPath2ExecutionInfo := [], resource2ResourceInfo := [], workspaceFolder2ExecutionInfos := [] }, true)

/-- `ModeEnum`, src/index.ts lines 77-80. -/
inductive ModeEnum where
  | auto
  | location
deriving DecidableEq, Repr

/-- One entry of the `eslint.workingDirectories` setting, as classified by
    the `Is.string / LegacyDirectoryItem.is / DirectoryItem.is /
    PatternItem.is / ModeItem.is` chain of the loop (src/index.ts
    lines 1104-1126), as a tagged variant. -/
inductive WorkingDirectoryEntry where
  | plainString (directory : String)
  | legacyItem (directory : String) (changeProcessCWD : Bool)
  | directoryItem (directory : String) (notCwd : Option Bool)
  | patternItem (pat : String) (notCwd : Option Bool)
  | modeItem (m : ModeEnum)
deriving DecidableEq, Repr

/-- The `workingDirectory` accumulator of the loop:
    `ModeItem | DirectoryItem | undefined` (src/index.ts line 1102, with
    `undefined` as the missing `Option` case); a `DirectoryItem` built by
    the loop always has its `!cwd` field set (line 1163). -/
inductive WorkingDirectoryValue where
  | modeValue (m : ModeEnum)
  | directoryValue (directory : String) (notCwd : Bool)
deriving DecidableEq, Repr

/-- Modelled from the spec: `toOSPath` from the repository's `src/utils`
    module (absent from `src/`) normalizes path separators to the host
    form; the embedding fixes a POSIX host, where a portable path is
    already in OS form. -/
def toOSPath (s : String) : String := s

/-- Modelled from the spec: `toPosixPath` from the repository's `src/utils`
    module (absent from `src/`) normalizes path separators to the portable
    form; identity on a POSIX host. -/
def toPosixPath (s : String) : String := s

/-- JS `String.prototype.startsWith`, over the character sequence. -/
def strStartsWith (s pre : String) : Bool := List.isPrefixOf pre.data s.data

/-- The JS check `s.charAt(s.length - 1) === c` (for one-character `c`);
    on the empty string `charAt` yields `""`, which differs from `c`. -/
def lastCharIs (s : String) (c : Char) : Bool :=
  match s.data.getLast? with
  | some c' => c' = c
  | none => false

/-- Node's `path.sep` (and `path.posix.sep`) on a POSIX host. -/
def pathSep : Char := '/'

/-- Node's `path.isAbsolute` (and `path.posix.isAbsolute`) on a POSIX host. -/
def isAbsolutePath (s : String) : Bool := strStartsWith s "/"

/-- Node's `path.join` (and `path.posix.join`) on a POSIX host; the claims
    need no dot-segment normalization. -/
def pathJoin (a b : String) : String :=
  if lastCharIs a pathSep then a ++ b else a ++ "/" ++ b

/-- Candidate computation for a directory value, src/index.ts
    lines 1133-1143: convert to OS form, resolve against the workspace
    folder when relative, force a trailing separator, then require the
    document path to start with it. -/
def directoryCandidate (workspaceFolderPath : Option String) (filePath : String)
    (directory0 : String) : Option String :=
  let directory1 := toOSPath directory0
  let directory2 :=
    match workspaceFolderPath with
    | some ws => if ¬ isAbsolutePath directory1 then pathJoin ws directory1 else directory1
    | none => directory1
  let directory3 := if lastCharIs directory2 pathSep then directory2 else directory2 ++ "/"
  if strStartsWith filePath directory3 then some directory3 else none

/-- Candidate computation for a pattern value, src/index.ts
    lines 1144-1157.  `regexMatch pat filePath` abstracts `convert2RegExp`
    (from the repository's `src/utils` module, absent from `src/`) followed
    by `exec`: it returns the matched prefix `match[0]`, and `none` both
    when the pattern does not compile and when it does not match; every
    theorem below holds for every such function. -/
def patternCandidate (regexMatch : String → String → Option String)
    (workspaceFolderPath : Option String) (filePath : String)
    (pattern0 : String) : Option String :=
  if pattern0.length > 0 then
    let pattern1 :=
      match workspaceFolderPath with
      | some ws => if ¬ isAbsolutePath pattern0 then pathJoin (toPosixPath ws) pattern0 else pattern0
      | none => pattern0
    let pattern2 := if lastCharIs pattern1 pathSep then pattern1 else pattern1 ++ "/"
    regexMatch pattern2 filePath
  else none

/-- The per-entry `noCWD` flag, src/index.ts lines 1107-1122. -/
def entryNoCwd : WorkingDirectoryEntry → Bool
  | WorkingDirectoryEntry.plainString _ => false
  | WorkingDirectoryEntry.legacyItem _ changeProcessCWD => !changeProcessCWD
  | WorkingDirectoryEntry.directoryItem _ notCwd => notCwd.getD false
  | WorkingDirectoryEntry.patternItem _ notCwd => notCwd.getD false
  | WorkingDirectoryEntry.modeItem _ => false

/-- The candidate directory (`itemValue`) computed for one entry,
    src/index.ts lines 1128-1160: `none` when the document has no `file:`
    path (`filePath = none`), when the entry is a mode marker, or when the
    entry does not match the document. -/
def entryCandidate (regexMatch : String → String → Option String)
    (workspaceFolderPath : Option String) (filePath : Option String) :
    WorkingDirectoryEntry → Option String
  | WorkingDirectoryEntry.plainString directory =>
      filePath.bind (fun fp => directoryCandidate workspaceFolderPath fp directory)
  | WorkingDirectoryEntry.legacyItem directory _ =>
      filePath.bind (fun fp => directoryCandidate workspaceFolderPath fp directory)
  | WorkingDirectoryEntry.directoryItem directory _ =>
      filePath.bind (fun fp => directoryCandidate workspaceFolderPath fp directory)
  | WorkingDirectoryEntry.patternItem pat _ =>
      filePath.bind (fun fp => patternCandidate regexMatch workspaceFolderPath fp pat)
  | WorkingDirectoryEntry.modeItem _ => none

/-- One iteration of the `workingDirectories` loop, src/index.ts
    lines 1104-1171: a mode marker is assigned to the accumulator
    unconditionally (lines 1123-1125); an entry with a candidate replaces an
    unset or mode accumulator, and replaces a directory accumulator exactly
    when its candidate is strictly longer (lines 1161-1170). -/
def workingDirectoryStep (regexMatch : String → String → Option String)
    (workspaceFolderPath : Option String) (filePath : Option String)
    (wd : Option WorkingDirectoryValue) (entry : WorkingDirectoryEntry) :
    Option WorkingDirectoryValue :=
  match entry with
  | WorkingDirectoryEntry.modeItem m => some (WorkingDirectoryValue.modeValue m)
  | _ =>
      match entryCandidate regexMatch workspaceFolderPath filePath entry with
      | none => wd
      | some itemValue =>
          match wd with
          | none => some (WorkingDirectoryValue.directoryValue itemValue (entryNoCwd entry))
          | some (WorkingDirectoryValue.modeValue _) =>
              some (WorkingDirectoryValue.directoryValue itemValue (entryNoCwd entry))
          | some (WorkingDirectoryValue.directoryValue d n) =>
              if d.length < itemValue.length then
                some (WorkingDirectoryValue.directoryValue itemValue (entryNoCwd entry))
              else
                some (WorkingDirectoryValue.directoryValue d n)

/-- The full `workingDirectories` resolution, src/index.ts lines 1100-1172:
    the loop over the setting entries, the accumulator starting `undefined`. -/
def resolveWorkingDirectory (regexMatch : String → String → Option String)
    (workspaceFolderPath : Option String) (filePath : Option String)
    (entries : List WorkingDirectoryEntry) : Option WorkingDirectoryValue :=
  entries.foldl (workingDirectoryStep regexMatch workspaceFolderPath filePath) none

/-- The candidates produced by the rules of a list, in order, each paired
    with its `noCWD` flag (mode markers produce none). -/
def candidateList (regexMatch : String → String → Option String)
    (workspaceFolderPath : Option String) (filePath : Option String)
    (entries : List WorkingDirectoryEntry) : List (String × Bool) :=
  entries.filterMap (fun e =>
    (entryCandidate regexMatch workspaceFolderPath filePath e).map (fun v => (v, entryNoCwd e)))

/-- The selection the loop performs among produced candidates: keep the
    current best, replacing it exactly by a strictly longer candidate. -/
def selectCandidate : (String × Bool) → List (String × Bool) → (String × Bool)
  | best, [] => best
  | best, c :: rest => selectCandidate (if best.1.length < c.1.length then c else best) rest

/-- `true` when an entry is a mode marker. -/
def isModeMarker : WorkingDirectoryEntry → Bool
  | WorkingDirectoryEntry.modeItem _ => true
  | _ => false

/-- A rule list without mode markers. -/
def noModeMarker (entries : List WorkingDirectoryEntry) : Bool :=
  entries.all (fun e => !(isModeMarker e))

/-- Concrete fixtures evaluated by the closed theorems below. -/
def paramsL : ExecutionParams := { scope := ExecutionScope.localScope, libraryPath := "L" }

def confirmParamsL : ConfirmExecutionParams :=
  { scope := ExecutionScope.localScope, libraryPath := "L", uri := "file:///ws/a.js" }

def stStoredFalseAlways : GlobalState :=
  { emptyState with eslintExecutionLibs := [("L", false)], eslintAlwaysAllowExecutionState := true }

def envBoom : Env := { okEnv with updateUI := Except.error "boom" }

def infoPendingDiag (lib : String) : ExecutionInfo :=
  { params := { scope := ExecutionScope.localScope, libraryPath := lib },
    result := ConfirmExecutionResult.confirmationPending,
    editorErrorUri := none,
    diagnostics := [("file:///ws/a.js", ["confirmation pending"])],
    codeActionProvider := false }

def stTwoTracked : GlobalState :=
  { emptyState with eslintAlwaysAllowExecutionState := true, libraryPath2ExecutionInfo := [("L", infoPendingDiag "L"), ("M", infoPendingDiag "M")] }

def stSessionOne : GlobalState :=
  { emptyState with sessionState := [("L", paramsL)], disabledLibraries := ["X"] }

def stDisabledStoredFalse : GlobalState :=
  { emptyState with eslintExecutionLibs := [("L", false)], disabledLibraries := ["L"] }

def noRegex : String → String → Option String := fun _ _ => none

def rulesTieEqual : List WorkingDirectoryEntry :=
  [WorkingDirectoryEntry.directoryItem "/proj/a/" (some false),
   WorkingDirectoryEntry.directoryItem "/proj/a/" (some true)]

def rulesNested : List WorkingDirectoryEntry :=
  [WorkingDirectoryEntry.directoryItem "/proj/a/" (some false),
   WorkingDirectoryEntry.directoryItem "/proj/a/b/" (some true)]

def rulesMarkerLast : List WorkingDirectoryEntry :=
  [WorkingDirectoryEntry.directoryItem "/proj/a/" (some false),
   WorkingDirectoryEntry.modeItem ModeEnum.auto]

/-- A `Map.set` binding is found by a subsequent `Map.get` of the same key. -/
theorem listLookup_listSet_self {α : Type} (l : List (String × α)) (k : String) (v : α) :
    listLookup (listSet l k v) k = some v := by
  induction l with
  | nil => simp [listSet, listLookup]
  | cons kv rest ih =>
    obtain ⟨k', v'⟩ := kv
    by_cases hk : k' = k
    · simp [listSet, listLookup, hk]
    · simp [listSet, listLookup, hk, ih]

/-- A `Map.set` leaves the bindings of every other key unchanged. -/
theorem listLookup_listSet_ne {α : Type} (l : List (String × α)) (k q : String) (v : α)
    (h : q ≠ k) : listLookup (listSet l k v) q = listLookup l q := by
  induction l with
  | nil => simp [listSet, listLookup, Ne.symm h]
  | cons kv rest ih =>
    obtain ⟨k', v'⟩ := kv
    by_cases hk : k' = k
    · subst hk
      simp [listSet, listLookup, Ne.symm h]
    · simp [listSet, listLookup, hk, ih]

/-- `Set.has` agrees with list membership. -/
theorem setMem_iff (s : List String) (k : String) : setMem s k = true ↔ k ∈ s := by
  induction s with
  | nil => simp [setMem]
  | cons k' rest ih =>
    by_cases hk : k' = k
    · simp [setMem, hk]
    · simp [setMem, hk, ih, Ne.symm hk]

/-- On a duplicate-free list (the JS `Set` invariant), `Set.delete`
    removes membership of the deleted key. -/
theorem setMem_setDelete_self (s : List String) (h : s.Nodup) (k : String) :
    setMem (setDelete s k) k = false := by
  induction s with
  | nil => simp [setDelete, setMem]
  | cons k' rest ih =>
    rw [List.nodup_cons] at h
    by_cases hk : k' = k
    · subst hk
      have : ¬ (setMem rest k' = true) := fun hm => h.1 ((setMem_iff rest k').mp hm)
      simp [setDelete, Bool.not_eq_true] at this ⊢
      exact this
    · simp [setDelete, setMem, hk, ih h.2]

/-- The decision computed by the handler's branch chain, as a function of
    the disabled set, the stored per-library decision, and the
    always-allow flag. -/
theorem confirmDecide_value (env : Env) (st st₁ : GlobalState) (p : ConfirmExecutionParams)
    (r? : Option ConfirmExecutionResult)
    (h : confirmDecide env st p = Except.ok (st₁, r?)) :
    r? = (if setMem st.disabledLibraries p.libraryPath then
            some ConfirmExecutionResult.disabled
          else
            match listLookup st.eslintExecutionLibs p.libraryPath with
            | some b => some (if b then ConfirmExecutionResult.approved
                              else ConfirmExecutionResult.denied)
            | none =>
                if st.eslintAlwaysAllowExecutionState then some ConfirmExecutionResult.approved
                else none) := by
  unfold confirmDecide at h
  split at h
  · rename_i hdis
    simp only [Except.ok.injEq, Prod.mk.injEq] at h
    simp [hdis, h.2.symm]
  · rename_i hdis
    split at h
    · rename_i b hlook
      split at h
      · exact absurd h (by simp)
      · rename_i st₂ hclear
        simp only [Except.ok.injEq, Prod.mk.injEq] at h
        simp [hdis, hlook, h.2.symm]
    · rename_i hlook
      split at h
      · rename_i halways
        split at h
        · exact absurd h (by simp)
        · rename_i st₂ hclear
          simp only [Except.ok.injEq, Prod.mk.injEq] at h
          simp [hdis, hlook, halways, h.2.symm]
      · rename_i halways
        simp only [Except.ok.injEq, Prod.mk.injEq] at h
        simp [hdis, hlook, halways, h.2.symm]

/-- A non-throwing run of the handler's `try` body returns the decision of
    the branch chain, defaulting to `confirmationPending`. -/
theorem confirmInner_result (env : Env) (st st' : GlobalState) (p : ConfirmExecutionParams)
    (r : ConfirmExecutionResult) (h : confirmInner env st p = Except.ok (st', r)) :
    r = Option.getD
          (if setMem st.disabledLibraries p.libraryPath then
             some ConfirmExecutionResult.disabled
           else
             match listLookup st.eslintExecutionLibs p.libraryPath with
             | some b => some (if b then ConfirmExecutionResult.approved
                               else ConfirmExecutionResult.denied)
             | none =>
                 if st.eslintAlwaysAllowExecutionState then some ConfirmExecutionResult.approved
                 else none)
          ConfirmExecutionResult.confirmationPending := by
  unfold confirmInner at h
  cases hd : confirmDecide env
      { st with sessionState := listSet st.sessionState p.libraryPath p.toExecutionParams } p with
  | error e => rw [hd] at h; cases h
  | ok pr =>
    obtain ⟨st₁, r?⟩ := pr
    rw [hd] at h
    simp only at h
    cases hr : confirmRecord env st₁ p (r?.getD ConfirmExecutionResult.confirmationPending) with
    | error e => rw [hr] at h; cases h
    | ok st₂ =>
      rw [hr] at h
      simp only [Except.ok.injEq, Prod.mk.injEq] at h
      have hv := confirmDecide_value env _ st₁ p r? hd
      rw [← h.2, hv]

/-- Claim C1: for every call to the `ConfirmExecution` handler that does
    not throw, the returned decision is computed in this order: if the
    library path is in the disabled set the result is `disabled`; else if
    the execution state stores a boolean for the path the result is
    `approved` when it is `true` and `denied` when it is `false`; else if
    the global always-allow flag is set the result is `approved`;
    otherwise the result is `confirmationPending`. -/
theorem claim_C1_confirm_decision_order (env : Env) (st : GlobalState)
    (p : ConfirmExecutionParams) (h : (confirmInner env st p).isOk = true) :
    (confirmExec env st p).2 =
      (if setMem st.disabledLibraries p.libraryPath then ConfirmExecutionResult.disabled
       else
         match listLookup st.eslintExecutionLibs p.libraryPath with
         | some true => ConfirmExecutionResult.approved
         | some false => ConfirmExecutionResult.denied
         | none =>
             if st.eslintAlwaysAllowExecutionState then ConfirmExecutionResult.approved
             else ConfirmExecutionResult.confirmationPending) := by
  cases hi : confirmInner env st p with
  | error e => rw [hi] at h; simp [Except.isOk, Except.toBool] at h
  | ok pr =>
    obtain ⟨st', r⟩ := pr
    have hr := confirmInner_result env st st' p r hi
    unfold confirmExec
    rw [hi]
    rw [hr]
    by_cases hdis : setMem st.disabledLibraries p.libraryPath
    · simp [hdis]
    · simp only [hdis]
      cases hlook : listLookup st.eslintExecutionLibs p.libraryPath with
      | some b => cases b <;> simp
      | none => by_cases halways : st.eslintAlwaysAllowExecutionState <;> simp [halways]

/-- Claim C1, witness: a concrete run with a stored `true` decision
    returns `approved`. -/
theorem claim_C1_witness :
    (confirmInner okEnv { emptyState with eslintExecutionLibs := [("L", true)] } confirmParamsL).isOk
        = true ∧
    (confirmExec okEnv { emptyState with eslintExecutionLibs := [("L", true)] } confirmParamsL).2
        = ConfirmExecutionResult.approved := by
  refine ⟨by decide, ?_⟩
  rw [claim_C1_confirm_decision_order okEnv _ confirmParamsL (by decide)]
  decide

/-- Claim C2: whenever the handler's `try` body throws, the handler
    returns `denied` — the gate fails closed and, being a total function,
    never propagates an exception. -/
theorem claim_C2_fail_closed (env : Env) (st : GlobalState) (p : ConfirmExecutionParams)
    (h : (confirmInner env st p).isOk = false) :
    (confirmExec env st p).2 = ConfirmExecutionResult.denied := by
  cases hi : confirmInner env st p with
  | ok pr => rw [hi] at h; simp [Except.isOk, Except.toBool] at h
  | error e =>
    obtain ⟨msg, st₁⟩ := e
    unfold confirmExec
    rw [hi]

/-- Claim C2, witness: a concrete run whose UI refresh throws returns
    `denied`. -/
theorem claim_C2_witness :
    (confirmInner envBoom emptyState confirmParamsL).isOk = false ∧
    (confirmExec envBoom emptyState confirmParamsL).2 = ConfirmExecutionResult.denied :=
  ⟨by decide, claim_C2_fail_closed envBoom emptyState confirmParamsL (by decide)⟩

/-- Claim C3, counterexample: with the always-allow flag set and a stored
    `false` decision for `"L"` (not disabled), the handler returns
    `denied`, not `approved` — the stored decision takes precedence over
    the flag, refuting the claim as stated. -/
theorem claim_C3_counterexample :
    stStoredFalseAlways.eslintAlwaysAllowExecutionState = true ∧
    setMem stStoredFalseAlways.disabledLibraries "L" = false ∧
    (confirmInner okEnv stStoredFalseAlways confirmParamsL).isOk = true ∧
    (confirmExec okEnv stStoredFalseAlways confirmParamsL).2 = ConfirmExecutionResult.denied ∧
    ConfirmExecutionResult.denied ≠ ConfirmExecutionResult.approved := by decide

/-- With no stored decision, not disabled and the always-allow flag set, a
    non-throwing run returns `approved`. -/
theorem confirmExec_approved_of_always (env : Env) (st : GlobalState) (p : ConfirmExecutionParams)
    (hdis : setMem st.disabledLibraries p.libraryPath = false)
    (hstored : listLookup st.eslintExecutionLibs p.libraryPath = none)
    (halways : st.eslintAlwaysAllowExecutionState = true)
    (h : (confirmInner env st p).isOk = true) :
    (confirmExec env st p).2 = ConfirmExecutionResult.approved := by
  cases hi : confirmInner env st p with
  | error e => rw [hi] at h; simp [Except.isOk, Except.toBool] at h
  | ok pr =>
    obtain ⟨st', r⟩ := pr
    have hr := confirmInner_result env st st' p r hi
    unfold confirmExec
    rw [hi, hr, hdis, hstored, halways]
    simp

/-- Claim C3, amended: whenever the always-allow flag is set, a
    non-throwing `confirm()` returns `approved` for every library path
    that is not disabled and has no individually stored decision; a stored
    decision takes precedence over the flag. -/
theorem claim_C3_amended (env : Env) (st : GlobalState) (p : ConfirmExecutionParams)
    (hdis : setMem st.disabledLibraries p.libraryPath = false)
    (hstored : listLookup st.eslintExecutionLibs p.libraryPath = none)
    (halways : st.eslintAlwaysAllowExecutionState = true)
    (h : (confirmInner env st p).isOk = true) :
    (confirmExec env st p).2 = ConfirmExecutionResult.approved :=
  confirmExec_approved_of_always env st p hdis hstored halways h

/-- Claim C3, witness: always-allow on an otherwise empty state yields
    `approved`. -/
theorem claim_C3_witness :
    setMem ({ emptyState with eslintAlwaysAllowExecutionState := true } : GlobalState).disabledLibraries "L" = false ∧
    (confirmExec okEnv { emptyState with eslintAlwaysAllowExecutionState := true } confirmParamsL).2
      = ConfirmExecutionResult.approved :=
  ⟨by decide,
   claim_C3_amended okEnv _ confirmParamsL (by decide) (by decide) (by decide) (by decide)⟩

/-- Claim C4: when the focused resource has no `ResourceInfo` of its own,
    `findApplicableStatus` reduces the candidate records (the workspace
    folder's list when present, otherwise all tracked records) in
    insertion order: the first record seeds the running result; a later
    `confirmationPending` overwrites it and stops the scan; a later
    `denied` or `disabled` overwrites it without stopping; `approved`
    never overwrites a non-empty result; an empty candidate list yields
    `Status.ok`; the final decision maps `approved` to ok, pending to
    confirmationPending, denied to executionDenied and disabled to
    executionDisabled. -/
theorem claim_C4_status_reduction (wsFolder : String → Option String) (st : GlobalState)
    (uri : String) (h : listLookup st.resource2ResourceInfo uri = none) :
    (findApplicableStatus wsFolder st (some uri) =
       (statusOfScan (applicableResult none
          (match wsFolder uri with
           | some folderUri =>
               match listLookup st.workspaceFolder2ExecutionInfos folderUri with
               | some paths => resultsOf st paths
               | none => allResults st
           | none => allResults st)), false)) ∧
    (∀ r rest, applicableResult none (r :: rest) = applicableResult (some r) rest) ∧
    (∀ cur rest, applicableResult (some cur) (ConfirmExecutionResult.confirmationPending :: rest)
        = some ConfirmExecutionResult.confirmationPending) ∧
    (∀ cur rest, applicableResult (some cur) (ConfirmExecutionResult.denied :: rest)
        = applicableResult (some ConfirmExecutionResult.denied) rest) ∧
    (∀ cur rest, applicableResult (some cur) (ConfirmExecutionResult.disabled :: rest)
        = applicableResult (some ConfirmExecutionResult.disabled) rest) ∧
    (∀ cur rest, applicableResult (some cur) (ConfirmExecutionResult.approved :: rest)
        = applicableResult (some cur) rest) ∧
    statusOfScan (applicableResult none []) = Status.ok ∧
    ConfirmExecutionResult.toStatus ConfirmExecutionResult.approved = Status.ok ∧
    ConfirmExecutionResult.toStatus ConfirmExecutionResult.confirmationPending
      = Status.confirmationPending ∧
    ConfirmExecutionResult.toStatus ConfirmExecutionResult.denied = Status.executionDenied ∧
    ConfirmExecutionResult.toStatus ConfirmExecutionResult.disabled = Status.executionDisabled := by
  refine ⟨?_, ?_, ?_, ?_, ?_, ?_, rfl, rfl, rfl, rfl, rfl⟩
  · simp [findApplicableStatus, h]
  · intro r rest; rfl
  · intro cur rest; simp [applicableResult]
  · intro cur rest; simp [applicableResult]
  · intro cur rest; simp [applicableResult]
  · intro cur rest; simp [applicableResult]

/-- Claim C4, witness: the reduction on an empty state yields the
    baseline ok status. -/
theorem claim_C4_witness :
    listLookup emptyState.resource2ResourceInfo "file:///ws/a.js" = none ∧
    findApplicableStatus (fun _ => none) emptyState (some "file:///ws/a.js") = (Status.ok, false) := by
  refine ⟨by decide, ?_⟩
  have h := claim_C4_status_reduction (fun _ => none) emptyState "file:///ws/a.js" (by decide)
  rw [h.1]
  decide

/-- The handler's tail (resource status plus UI refresh) never touches the
    `ExecutionInfo` map. -/
theorem confirmFinish_ok_lib2info (env : Env) (p : ConfirmExecutionParams)
    (result : ConfirmExecutionResult) (st st₂ : GlobalState)
    (h : confirmFinish env p result st = Except.ok st₂) :
    st₂.libraryPath2ExecutionInfo = st.libraryPath2ExecutionInfo := by
  unfold confirmFinish at h
  split at h <;> split at h <;> (try cases h) <;> rfl

/-- A non-throwing `clearDiagnosticState` call either finds no record and
    leaves the state alone, or performs the pure clearing. -/
theorem clearDiagnosticStateE_ok (env : Env) (st : GlobalState) (lib : String)
    (st₁ : GlobalState) (h : clearDiagnosticStateE env st lib = Except.ok st₁) :
    (st₁ = st ∧ listLookup st.libraryPath2ExecutionInfo lib = none) ∨
    st₁ = clearDiagnosticState st lib := by
  unfold clearDiagnosticStateE at h
  split at h
  · rename_i hnone
    cases h
    exact Or.inl ⟨rfl, hnone⟩
  · split at h
    · cases h
    · cases h
      exact Or.inr rfl

/-- `clearDiagnosticState` leaves every other library's record unchanged. -/
theorem clearDiagnosticState_lookup_other (st : GlobalState) (lib q : String) (hq : q ≠ lib) :
    listLookup (clearDiagnosticState st lib).libraryPath2ExecutionInfo q
      = listLookup st.libraryPath2ExecutionInfo q := by
  unfold clearDiagnosticState
  split
  · rfl
  · exact listLookup_listSet_ne _ _ _ _ hq

/-- After `clearDiagnosticState`, the library's record (if any) holds no
    diagnostics. -/
theorem clearDiagnosticState_lookup_self (st : GlobalState) (lib : String) :
    ((listLookup (clearDiagnosticState st lib).libraryPath2ExecutionInfo lib).map
        ExecutionInfo.diagnostics).getD [] = [] := by
  unfold clearDiagnosticState
  split
  · rename_i hnone
    rw [hnone]
    rfl
  · rename_i info hsome
    rw [listLookup_listSet_self]
    rfl

/-- The record-keeping step touches only the confirmed library's
    `ExecutionInfo` and preserves its diagnostics (creating it empty when
    absent). -/
theorem confirmRecord_ok_lib2info (env : Env) (st : GlobalState) (p : ConfirmExecutionParams)
    (result : ConfirmExecutionResult) (st₂ : GlobalState)
    (h : confirmRecord env st p result = Except.ok st₂) :
    (∀ q, q ≠ p.libraryPath →
        listLookup st₂.libraryPath2ExecutionInfo q = listLookup st.libraryPath2ExecutionInfo q) ∧
    (∃ info, listLookup st₂.libraryPath2ExecutionInfo p.libraryPath = some info ∧
        info.diagnostics =
          ((listLookup st.libraryPath2ExecutionInfo p.libraryPath).map
              ExecutionInfo.diagnostics).getD []) := by
  unfold confirmRecord at h
  split at h
  · rename_i hlook
    split at h
    · cases h
    · split at h
      · cases h
      · have hfin := confirmFinish_ok_lib2info _ _ _ _ _ h
        rw [hfin]
        refine ⟨fun q hq => listLookup_listSet_ne _ _ _ _ hq, _, listLookup_listSet_self _ _ _, ?_⟩
        rw [hlook]
        rfl
      · have hfin := confirmFinish_ok_lib2info _ _ _ _ _ h
        rw [hfin]
        refine ⟨fun q hq => listLookup_listSet_ne _ _ _ _ hq, _, listLookup_listSet_self _ _ _, ?_⟩
        rw [hlook]
        rfl
  · rename_i executionInfo hlook
    have hfin := confirmFinish_ok_lib2info _ _ _ _ _ h
    rw [hfin]
    refine ⟨fun q hq => listLookup_listSet_ne _ _ _ _ hq, _, listLookup_listSet_self _ _ _, ?_⟩
    rw [hlook]
    rfl

/-- With no stored decision, not disabled and the always-allow flag set,
    the decision chain clears this library's diagnostics and yields
    `approved`. -/
theorem confirmDecide_always (env : Env) (st : GlobalState) (p : ConfirmExecutionParams)
    (hdis : setMem st.disabledLibraries p.libraryPath = false)
    (hstored : listLookup st.eslintExecutionLibs p.libraryPath = none)
    (halways : st.eslintAlwaysAllowExecutionState = true) :
    confirmDecide env st p =
      match clearDiagnosticStateE env st p.libraryPath with
      | Except.error e => Except.error e
      | Except.ok st' => Except.ok (st', some ConfirmExecutionResult.approved) := by
  unfold confirmDecide
  rw [hdis, hstored, halways]
  simp

/-- Claim C7 (amended): when `confirm()` resolves a library via the global
    always-allow flag, it clears the diagnostics of that library only:
    every other tracked library's `ExecutionInfo` — its pending
    diagnostics included — is exactly as before the call.  (The claim's
    assertion that every tracked library is cleared is refuted by the
    counterexample.) -/
theorem claim_C7_always_clears_only_own (env : Env) (st : GlobalState)
    (p : ConfirmExecutionParams)
    (hdis : setMem st.disabledLibraries p.libraryPath = false)
    (hstored : listLookup st.eslintExecutionLibs p.libraryPath = none)
    (halways : st.eslintAlwaysAllowExecutionState = true)
    (hok : (confirmInner env st p).isOk = true) :
    (∀ q, q ≠ p.libraryPath →
        listLookup (confirmExec env st p).1.libraryPath2ExecutionInfo q
          = listLookup st.libraryPath2ExecutionInfo q) ∧
    (∃ info,
        listLookup (confirmExec env st p).1.libraryPath2ExecutionInfo p.libraryPath = some info ∧
        info.diagnostics = []) := by
  cases hi : confirmInner env st p with
  | error e => rw [hi] at hok; simp [Except.isOk, Except.toBool] at hok
  | ok pr =>
    obtain ⟨st', r⟩ := pr
    unfold confirmExec
    rw [hi]
    dsimp only
    unfold confirmInner at hi
    rw [confirmDecide_always env
      { st with sessionState := listSet st.sessionState p.libraryPath p.toExecutionParams }
      p hdis hstored halways] at hi
    cases hc : clearDiagnosticStateE env
        { st with sessionState := listSet st.sessionState p.libraryPath p.toExecutionParams }
        p.libraryPath with
    | error e => rw [hc] at hi; cases hi
    | ok st₁ =>
      rw [hc] at hi
      simp only at hi
      cases hr : confirmRecord env st₁ p
          ((some ConfirmExecutionResult.approved).getD ConfirmExecutionResult.confirmationPending) with
      | error e => rw [hr] at hi; cases hi
      | ok st₂ =>
        rw [hr] at hi
        simp only [Except.ok.injEq, Prod.mk.injEq] at hi
        obtain ⟨hst', hres⟩ := hi
        have hrec := confirmRecord_ok_lib2info env st₁ p _ st₂ hr
        have hclear := clearDiagnosticStateE_ok env _ p.libraryPath st₁ hc
        constructor
        · intro q hq
          simp only [← hst']
          rw [hrec.1 q hq]
          rcases hclear with ⟨h1, _⟩ | h1
          · rw [h1]
          · rw [h1, clearDiagnosticState_lookup_other _ _ _ hq]
        · obtain ⟨info, hlook2, hdiag⟩ := hrec.2
          refine ⟨info, ?_, ?_⟩
          · simp only [← hst']
            exact hlook2
          · rw [hdiag]
            rcases hclear with ⟨h1, h2⟩ | h1
            · rw [h1, h2]
              rfl
            · rw [h1, clearDiagnosticState_lookup_self]

/-- Claim C7, counterexample: two tracked libraries with pending
    diagnostics; resolving `"L"` via always-allow leaves `"M"`'s
    diagnostics in place, refuting the claim that every tracked library is
    cleared. -/
theorem claim_C7_counterexample :
    setMem stTwoTracked.disabledLibraries "L" = false ∧
    listLookup stTwoTracked.eslintExecutionLibs "L" = none ∧
    stTwoTracked.eslintAlwaysAllowExecutionState = true ∧
    (confirmExec okEnv stTwoTracked confirmParamsL).2 = ConfirmExecutionResult.approved ∧
    ((listLookup (confirmExec okEnv stTwoTracked confirmParamsL).1.libraryPath2ExecutionInfo
        "M").map ExecutionInfo.diagnostics)
      = some [("file:///ws/a.js", ["confirmation pending"])] := by decide

/-- Claim C7, witness: the other tracked library's record is unchanged by
    the always-allow resolution. -/
theorem claim_C7_witness :
    listLookup (confirmExec okEnv stTwoTracked confirmParamsL).1.libraryPath2ExecutionInfo "M"
      = listLookup stTwoTracked.libraryPath2ExecutionInfo "M" := by
  have h := claim_C7_always_clears_only_own okEnv stTwoTracked confirmParamsL
    (by decide) (by decide) (by decide) (by decide)
  exact h.1 "M" (by decide)

/-- Claim C8 (amended): dismissing the confirmation dialog changes nothing
    except the session-touched map, which records the library before the
    dialog is shown; the disabled set, stored decisions, always-allow
    flag, `ExecutionInfo`s, folder index and resource statuses are exactly
    as before, and no status-changed signal fires. -/
theorem claim_C8_dismiss_updates_only_session (st : GlobalState) (params : ExecutionParams) :
    askForLibraryConfirmation st params none =
      ({ st with sessionState := listSet st.sessionState params.libraryPath params }, false) ∧
    (askForLibraryConfirmation st params none).1.disabledLibraries = st.disabledLibraries ∧
    (askForLibraryConfirmation st params none).1.eslintExecutionLibs = st.eslintExecutionLibs ∧
    (askForLibraryConfirmation st params none).1.eslintAlwaysAllowExecutionState
      = st.eslintAlwaysAllowExecutionState ∧
    (askForLibraryConfirmation st params none).1.libraryPath2ExecutionInfo
      = st.libraryPath2ExecutionInfo ∧
    (askForLibraryConfirmation st params none).1.workspaceFolder2ExecutionInfos
      = st.workspaceFolder2ExecutionInfos ∧
    (askForLibraryConfirmation st params none).1.resource2ResourceInfo = st.resource2ResourceInfo ∧
    (askForLibraryConfirmation st params none).2 = false :=
  ⟨rfl, rfl, rfl, rfl, rfl, rfl, rfl, rfl⟩

/-- Claim C8, counterexample: dismissing the dialog on an empty state
    still records the library in the session map, so the call is not a
    pure no-op, refuting the claim as stated. -/
theorem claim_C8_counterexample :
    (askForLibraryConfirmation emptyState paramsL none).1.sessionState = [("L", paramsL)] ∧
    (askForLibraryConfirmation emptyState paramsL none).1 ≠ emptyState := by decide

/-- Claim C9 (amended): the `all` and `alwaysAllow` reset modes, and the
    `session` mode when the session map does not hold exactly one entry,
    clear the disabled set and all `ExecutionInfo`s, resource statuses and
    folder-index entries after the mode-specific mutation and signal
    status-changed; the `session` mode with exactly one touched library
    instead redirects into the interactive confirmation and clears
    nothing. -/
theorem claim_C9_reset_modes (st : GlobalState) (choice : Option ConfirmationSelection) :
    (resetLibraryConfirmations st ResetKind.all choice =
      ({ st with eslintExecutionLibs := [], eslintAlwaysAllowExecutionState := false, disabledLibraries := [], libraryPath2ExecutionInfo := [], resource2ResourceInfo := [], workspaceFolder2ExecutionInfos := [] }, true)) ∧
    (resetLibraryConfirmations st ResetKind.alwaysAllow choice =
      ({ st with eslintAlwaysAllowExecutionState := false, disabledLibraries := [], libraryPath2ExecutionInfo := [], resource2ResourceInfo := [], workspaceFolder2ExecutionInfos := [] }, true)) ∧
    ((∀ x : String × ExecutionParams, st.sessionState ≠ [x]) →
      resetLibraryConfirmations st ResetKind.session choice =
        ({ st with eslintExecutionLibs := st.sessionState.foldl (fun libs kv => listErase libs kv.1) st.eslintExecutionLibs, disabledLibraries := [], libraryPath2ExecutionInfo := [], resource2ResourceInfo := [], workspaceFolder2ExecutionInfos := [] }, true)) ∧
    (∀ lib param, st.sessionState = [(lib, param)] →
      resetLibraryConfirmations st ResetKind.session choice =
        askForLibraryConfirmation st param choice) := by
  refine ⟨rfl, rfl, ?_, ?_⟩
  · intro hne
    unfold resetLibraryConfirmations
    cases hs : st.sessionState with
    | nil => rfl
    | cons x xs =>
      cases xs with
      | nil => exact absurd hs (hne x)
      | cons y ys => rfl
  · intro lib param hs
    unfold resetLibraryConfirmations
    rw [hs]

/-- Claim C9, counterexample: a `session` reset with exactly one touched
    library leaves the disabled set uncleared and fires no signal,
    refuting the claim for that mode. -/
theorem claim_C9_counterexample :
    (resetLibraryConfirmations stSessionOne ResetKind.session none).1.disabledLibraries = ["X"] ∧
    (resetLibraryConfirmations stSessionOne ResetKind.session none).2 = false ∧
    ("X" :: ([] : List String)) ≠ ([] : List String) := by decide

/-- Claim C9, witness: concrete runs of the `all` mode, of the `session`
    mode with an empty session map, and of the single-library redirect. -/
theorem claim_C9_witness :
    resetLibraryConfirmations stSessionOne ResetKind.all none =
      ({ stSessionOne with eslintExecutionLibs := [], eslintAlwaysAllowExecutionState := false, disabledLibraries := [], libraryPath2ExecutionInfo := [], resource2ResourceInfo := [], workspaceFolder2ExecutionInfos := [] }, true) ∧
    resetLibraryConfirmations emptyState ResetKind.session none = (emptyState, true) ∧
    resetLibraryConfirmations stSessionOne ResetKind.session none =
      askForLibraryConfirmation stSessionOne paramsL none := by
  have h := claim_C9_reset_modes stSessionOne none
  have h2 := claim_C9_reset_modes emptyState none
  refine ⟨h.1, ?_, h.2.2.2 "L" paramsL (by decide)⟩
  exact (h2.2.2.1 (fun x hx => List.noConfusion hx)).trans (by decide)

/-- `updateExecutionInfo` does not touch the disabled set. -/
theorem updateExecutionInfo_disabledLibraries (st : GlobalState) (params : ExecutionParams)
    (result : ConfirmExecutionResult) :
    (updateExecutionInfo st params result).disabledLibraries = st.disabledLibraries := by
  unfold updateExecutionInfo
  split <;> rfl

/-- `updateExecutionInfo` does not touch the stored decisions. -/
theorem updateExecutionInfo_eslintExecutionLibs (st : GlobalState) (params : ExecutionParams)
    (result : ConfirmExecutionResult) :
    (updateExecutionInfo st params result).eslintExecutionLibs = st.eslintExecutionLibs := by
  unfold updateExecutionInfo
  split <;> rfl

/-- `updateExecutionInfo` does not touch the always-allow flag. -/
theorem updateExecutionInfo_alwaysAllow (st : GlobalState) (params : ExecutionParams)
    (result : ConfirmExecutionResult) :
    (updateExecutionInfo st params result).eslintAlwaysAllowExecutionState
      = st.eslintAlwaysAllowExecutionState := by
  unfold updateExecutionInfo
  split <;> rfl

/-- Selecting Allow-Everywhere deletes the library from the disabled set,
    sets the always-allow flag, and leaves the stored decisions alone. -/
theorem askFor_alwaysAllow_state (st : GlobalState) (params : ExecutionParams) :
    (askForLibraryConfirmation st params (some ConfirmationSelection.alwaysAllow)).1.disabledLibraries
      = setDelete st.disabledLibraries params.libraryPath ∧
    (askForLibraryConfirmation st params
        (some ConfirmationSelection.alwaysAllow)).1.eslintAlwaysAllowExecutionState = true ∧
    (askForLibraryConfirmation st params (some ConfirmationSelection.alwaysAllow)).1.eslintExecutionLibs
      = st.eslintExecutionLibs := by
  unfold askForLibraryConfirmation clearAllDiagnosticState
  refine ⟨?_, ?_, ?_⟩
  · simp [updateExecutionInfo_disabledLibraries]
  · simp [updateExecutionInfo_alwaysAllow]
  · simp [updateExecutionInfo_eslintExecutionLibs]

/-- Claim C10 (amended): selecting Allow-Everywhere for a library removes
    it from the (duplicate-free) disabled set in addition to setting the
    global always-allow flag, so a subsequent non-throwing `confirm()` for
    it returns `approved` rather than `disabled` — provided the library
    has no stored per-library decision, which still takes precedence. -/
theorem claim_C10_always_allow_removes_disabled (st : GlobalState) (params : ExecutionParams)
    (hnd : st.disabledLibraries.Nodup) :
    ((askForLibraryConfirmation st params (some ConfirmationSelection.alwaysAllow)).1.disabledLibraries
        = setDelete st.disabledLibraries params.libraryPath) ∧
    setMem (askForLibraryConfirmation st params
        (some ConfirmationSelection.alwaysAllow)).1.disabledLibraries params.libraryPath = false ∧
    (askForLibraryConfirmation st params
        (some ConfirmationSelection.alwaysAllow)).1.eslintAlwaysAllowExecutionState = true ∧
    (∀ (env : Env) (scope : ExecutionScope) (uri : String),
        listLookup st.eslintExecutionLibs params.libraryPath = none →
        (confirmInner env
            (askForLibraryConfirmation st params (some ConfirmationSelection.alwaysAllow)).1
            { scope := scope, libraryPath := params.libraryPath, uri := uri }).isOk = true →
        (confirmExec env
            (askForLibraryConfirmation st params (some ConfirmationSelection.alwaysAllow)).1
            { scope := scope, libraryPath := params.libraryPath, uri := uri }).2
          = ConfirmExecutionResult.approved) := by
  have hst := askFor_alwaysAllow_state st params
  refine ⟨hst.1, ?_, hst.2.1, ?_⟩
  · rw [hst.1]
    exact setMem_setDelete_self _ hnd _
  · intro env scope uri hstored hok
    refine confirmExec_approved_of_always env _ _ ?_ ?_ hst.2.1 hok
    · rw [hst.1]
      exact setMem_setDelete_self _ hnd _
    · rw [hst.2.2]
      exact hstored

/-- Claim C10, counterexample: a library disabled this session with a
    stored `false` decision; after Allow-Everywhere, `confirm()` returns
    `denied`, not `approved`, refuting the claim's unconditional
    consequent. -/
theorem claim_C10_counterexample :
    (confirmExec okEnv
        (askForLibraryConfirmation stDisabledStoredFalse paramsL
          (some ConfirmationSelection.alwaysAllow)).1 confirmParamsL).2
      = ConfirmExecutionResult.denied ∧
    ConfirmExecutionResult.denied ≠ ConfirmExecutionResult.approved := by decide

/-- Claim C10, witness: a disabled library with no stored decision is
    approved after Allow-Everywhere. -/
theorem claim_C10_witness :
    (confirmExec okEnv
        (askForLibraryConfirmation { emptyState with disabledLibraries := ["L"] } paramsL
          (some ConfirmationSelection.alwaysAllow)).1 confirmParamsL).2
      = ConfirmExecutionResult.approved := by
  have h := claim_C10_always_allow_removes_disabled
    { emptyState with disabledLibraries := ["L"] } paramsL (by decide)
  exact h.2.2.2 okEnv ExecutionScope.localScope "file:///ws/a.js" (by decide) (by decide)

/-- A mode marker overwrites the loop accumulator unconditionally
    (src/index.ts lines 1123-1125). -/
theorem workingDirectoryStep_marker (rm : String → String → Option String)
    (ws fp : Option String) (wd : Option WorkingDirectoryValue) (m : ModeEnum) :
    workingDirectoryStep rm ws fp wd (WorkingDirectoryEntry.modeItem m)
      = some (WorkingDirectoryValue.modeValue m) := rfl

/-- For a non-marker rule, one loop iteration applies the candidate-based
    selection of src/index.ts lines 1161-1170. -/
theorem workingDirectoryStep_not_marker (rm : String → String → Option String)
    (ws fp : Option String) (wd : Option WorkingDirectoryValue) (e : WorkingDirectoryEntry)
    (h : isModeMarker e = false) :
    workingDirectoryStep rm ws fp wd e =
      (match entryCandidate rm ws fp e with
       | none => wd
       | some itemValue =>
           match wd with
           | none => some (WorkingDirectoryValue.directoryValue itemValue (entryNoCwd e))
           | some (WorkingDirectoryValue.modeValue _) =>
               some (WorkingDirectoryValue.directoryValue itemValue (entryNoCwd e))
           | some (WorkingDirectoryValue.directoryValue d n) =>
               if d.length < itemValue.length then
                 some (WorkingDirectoryValue.directoryValue itemValue (entryNoCwd e))
               else some (WorkingDirectoryValue.directoryValue d n)) := by
  cases e with
  | modeItem m => simp [isModeMarker] at h
  | plainString d => rfl
  | legacyItem d c => rfl
  | directoryItem d n => rfl
  | patternItem q n => rfl

/-- Unfolding of the candidate list over the first rule. -/
theorem candidateList_cons (rm : String → String → Option String) (ws fp : Option String)
    (e : WorkingDirectoryEntry) (rest : List WorkingDirectoryEntry) :
    candidateList rm ws fp (e :: rest) =
      (match entryCandidate rm ws fp e with
       | none => candidateList rm ws fp rest
       | some v => (v, entryNoCwd e) :: candidateList rm ws fp rest) := by
  cases hc : entryCandidate rm ws fp e with
  | none => simp [candidateList, List.filterMap_cons, hc]
  | some v => simp [candidateList, List.filterMap_cons, hc]

/-- On a marker-free rule list, the loop started from a directory
    accumulator performs exactly the strictly-longer replacement
    `selectCandidate`. -/
theorem foldl_step_dir (rm : String → String → Option String) (ws fp : Option String)
    (entries : List WorkingDirectoryEntry) (h : noModeMarker entries = true)
    (best : String × Bool) :
    entries.foldl (workingDirectoryStep rm ws fp)
        (some (WorkingDirectoryValue.directoryValue best.1 best.2))
      = some (WorkingDirectoryValue.directoryValue
          (selectCandidate best (candidateList rm ws fp entries)).1
          (selectCandidate best (candidateList rm ws fp entries)).2) := by
  induction entries generalizing best with
  | nil => simp [candidateList, selectCandidate]
  | cons e rest ih =>
    simp only [noModeMarker, List.all_cons, Bool.and_eq_true, Bool.not_eq_true'] at h
    have hm : isModeMarker e = false := h.1
    have hrest : noModeMarker rest = true := h.2
    rw [List.foldl_cons, workingDirectoryStep_not_marker rm ws fp _ e hm, candidateList_cons]
    cases hc : entryCandidate rm ws fp e with
    | none =>
      exact ih hrest best
    | some v =>
      dsimp only
      by_cases hlt : best.1.length < v.length
      · rw [if_pos hlt, ih hrest (v, entryNoCwd e)]
        simp only [selectCandidate]
        rw [if_pos hlt]
      · rw [if_neg hlt, ih hrest best]
        simp only [selectCandidate]
        rw [if_neg hlt]

/-- On a marker-free rule list, the loop started from an unset or mode
    accumulator keeps that accumulator when no rule produces a candidate
    and otherwise selects among the produced candidates. -/
theorem foldl_step_start (rm : String → String → Option String) (ws fp : Option String)
    (entries : List WorkingDirectoryEntry) (h : noModeMarker entries = true)
    (acc : Option WorkingDirectoryValue)
    (hacc : acc = none ∨ ∃ m, acc = some (WorkingDirectoryValue.modeValue m)) :
    entries.foldl (workingDirectoryStep rm ws fp) acc =
      (match candidateList rm ws fp entries with
       | [] => acc
       | c :: cs => some (WorkingDirectoryValue.directoryValue (selectCandidate c cs).1
           (selectCandidate c cs).2)) := by
  induction entries generalizing acc with
  | nil => simp [candidateList]
  | cons e rest ih =>
    simp only [noModeMarker, List.all_cons, Bool.and_eq_true, Bool.not_eq_true'] at h
    have hm : isModeMarker e = false := h.1
    have hrest : noModeMarker rest = true := h.2
    rw [List.foldl_cons, workingDirectoryStep_not_marker rm ws fp _ e hm, candidateList_cons]
    cases hc : entryCandidate rm ws fp e with
    | none =>
      exact ih hrest acc hacc
    | some v =>
      dsimp only
      rcases hacc with rfl | ⟨m, rfl⟩
      · exact foldl_step_dir rm ws fp rest hrest (v, entryNoCwd e)
      · exact foldl_step_dir rm ws fp rest hrest (v, entryNoCwd e)

/-- The loop over a list whose last mode marker is followed by `post`
    equals the loop over `post` started from that marker: everything
    before the marker is discarded. -/
theorem foldl_step_after_marker (rm : String → String → Option String) (ws fp : Option String)
    (pre post : List WorkingDirectoryEntry) (m : ModeEnum) (acc : Option WorkingDirectoryValue) :
    (pre ++ WorkingDirectoryEntry.modeItem m :: post).foldl (workingDirectoryStep rm ws fp) acc
      = post.foldl (workingDirectoryStep rm ws fp) (some (WorkingDirectoryValue.modeValue m)) := by
  rw [List.foldl_append, List.foldl_cons, workingDirectoryStep_marker]

/-- Characterization of the strictly-longer replacement: the selected
    candidate is the first of maximal length — everything before it is
    strictly shorter, everything after it no longer. -/
theorem selectCandidate_spec (cs : List (String × Bool)) (best : String × Bool) :
    (selectCandidate best cs = best ∧ ∀ x ∈ cs, x.1.length ≤ best.1.length) ∨
    (∃ pre suf, cs = pre ++ selectCandidate best cs :: suf ∧
       best.1.length < (selectCandidate best cs).1.length ∧
       (∀ x ∈ pre, x.1.length < (selectCandidate best cs).1.length) ∧
       (∀ x ∈ suf, x.1.length ≤ (selectCandidate best cs).1.length)) := by
  induction cs generalizing best with
  | nil => exact Or.inl ⟨rfl, by simp⟩
  | cons c rest ih =>
    by_cases hlt : best.1.length < c.1.length
    · have hsel : selectCandidate best (c :: rest) = selectCandidate c rest := by
        simp only [selectCandidate]
        rw [if_pos hlt]
      rcases ih c with ⟨heq, hall⟩ | ⟨pre, suf, hsplit, hbest, hpre, hsuf⟩
      · refine Or.inr ⟨[], rest, ?_, ?_, by simp, ?_⟩
        · rw [hsel, heq]
          rfl
        · rw [hsel, heq]
          exact hlt
        · intro x hx
          rw [hsel, heq]
          exact hall x hx
      · refine Or.inr ⟨c :: pre, suf, ?_, ?_, ?_, ?_⟩
        · rw [hsel, List.cons_append, ← hsplit]
        · rw [hsel]
          exact lt_trans hlt hbest
        · intro x hx
          rw [hsel]
          rcases List.mem_cons.mp hx with rfl | hx'
          · exact hbest
          · exact hpre x hx'
        · intro x hx
          rw [hsel]
          exact hsuf x hx
    · have hsel : selectCandidate best (c :: rest) = selectCandidate best rest := by
        simp only [selectCandidate]
        rw [if_neg hlt]
      have hcle : c.1.length ≤ best.1.length := Nat.le_of_not_lt hlt
      rcases ih best with ⟨heq, hall⟩ | ⟨pre, suf, hsplit, hbest, hpre, hsuf⟩
      · refine Or.inl ⟨by rw [hsel, heq], ?_⟩
        intro x hx
        rcases List.mem_cons.mp hx with rfl | hx'
        · exact hcle
        · exact hall x hx'
      · refine Or.inr ⟨c :: pre, suf, ?_, ?_, ?_, ?_⟩
        · rw [hsel, List.cons_append, ← hsplit]
        · rw [hsel]
          exact hbest
        · intro x hx
          rw [hsel]
          rcases List.mem_cons.mp hx with rfl | hx'
          · exact Nat.lt_of_le_of_lt hcle hbest
          · exact hpre x hx'
        · intro x hx
          rw [hsel]
          exact hsuf x hx

/-- Claim C5 (amended): for a marker-free rule list whose rules produced
    at least one candidate, the resolver returns the candidate selected by
    the strictly-longer replacement, and that candidate is the first of
    maximal length among all produced candidates: every earlier candidate
    is strictly shorter and every later one is no longer — so on equal
    lengths the EARLIER rule wins, not the later as claimed. -/
theorem claim_C5_longest_wins_earlier_ties (rm : String → String → Option String)
    (ws fp : Option String) (entries : List WorkingDirectoryEntry)
    (c : String × Bool) (cs : List (String × Bool))
    (hmarker : noModeMarker entries = true)
    (hcand : candidateList rm ws fp entries = c :: cs) :
    ∃ pre suf,
      resolveWorkingDirectory rm ws fp entries
        = some (WorkingDirectoryValue.directoryValue (selectCandidate c cs).1
            (selectCandidate c cs).2) ∧
      c :: cs = pre ++ (selectCandidate c cs) :: suf ∧
      (∀ x ∈ pre, x.1.length < (selectCandidate c cs).1.length) ∧
      (∀ x ∈ suf, x.1.length ≤ (selectCandidate c cs).1.length) := by
  have hres : resolveWorkingDirectory rm ws fp entries
      = some (WorkingDirectoryValue.directoryValue (selectCandidate c cs).1
          (selectCandidate c cs).2) := by
    unfold resolveWorkingDirectory
    rw [foldl_step_start rm ws fp entries hmarker none (Or.inl rfl), hcand]
  rcases selectCandidate_spec cs c with ⟨heq, hall⟩ | ⟨pre, suf, hsplit, hbest, hpre, hsuf⟩
  · refine ⟨[], cs, hres, ?_, by simp, ?_⟩
    · rw [heq]
      rfl
    · intro x hx
      rw [heq]
      exact hall x hx
  · refine ⟨c :: pre, suf, hres, ?_, ?_, hsuf⟩
    · rw [List.cons_append, ← hsplit]
    · intro x hx
      rcases List.mem_cons.mp hx with rfl | hx'
      · exact hbest
      · exact hpre x hx'

/-- Claim C5, counterexample: two rules producing equal-length candidates
    with different `!cwd` flags; the resolver keeps the first rule's flag,
    refuting the claimed last-seen tie-break. -/
theorem claim_C5_counterexample :
    candidateList noRegex none (some "/proj/a/file.js") rulesTieEqual
      = [("/proj/a/", false), ("/proj/a/", true)] ∧
    resolveWorkingDirectory noRegex none (some "/proj/a/file.js") rulesTieEqual
      = some (WorkingDirectoryValue.directoryValue "/proj/a/" false) ∧
    resolveWorkingDirectory noRegex none (some "/proj/a/file.js") rulesTieEqual
      ≠ some (WorkingDirectoryValue.directoryValue "/proj/a/" true) := by decide

/-- Claim C5, witness: the spec's own example — the longer of two nested
    directory candidates wins. -/
theorem claim_C5_witness :
    noModeMarker rulesNested = true ∧
    candidateList noRegex none (some "/proj/a/b/file.js") rulesNested
      = [("/proj/a/", false), ("/proj/a/b/", true)] ∧
    resolveWorkingDirectory noRegex none (some "/proj/a/b/file.js") rulesNested
      = some (WorkingDirectoryValue.directoryValue "/proj/a/b/" true) := by
  refine ⟨by decide, by decide, ?_⟩
  have h := claim_C5_longest_wins_earlier_ties noRegex none (some "/proj/a/b/file.js")
    rulesNested ("/proj/a/", false) [("/proj/a/b/", true)] (by decide) (by decide)
  obtain ⟨pre, suf, hres, -, -, -⟩ := h
  rw [hres]
  decide

/-- Claim C6 (amended): a mode marker overwrites the running result
    unconditionally when encountered, displacing even a previously
    selected directory candidate; the resolver returns the last marker
    exactly when no rule after it produced a candidate, and otherwise the
    candidates after the last marker restart the selection and yield a
    directory result.  (The claim that a marker never displaces a
    candidate is refuted by the counterexample.) -/
theorem claim_C6_mode_marker_overwrites (rm : String → String → Option String)
    (ws fp : Option String) (pre post : List WorkingDirectoryEntry) (m : ModeEnum)
    (hpost : noModeMarker post = true) :
    (∀ wd, workingDirectoryStep rm ws fp wd (WorkingDirectoryEntry.modeItem m)
        = some (WorkingDirectoryValue.modeValue m)) ∧
    resolveWorkingDirectory rm ws fp (pre ++ WorkingDirectoryEntry.modeItem m :: post) =
      (match candidateList rm ws fp post with
       | [] => some (WorkingDirectoryValue.modeValue m)
       | c :: cs => some (WorkingDirectoryValue.directoryValue (selectCandidate c cs).1
           (selectCandidate c cs).2)) := by
  refine ⟨fun wd => rfl, ?_⟩
  unfold resolveWorkingDirectory
  rw [foldl_step_after_marker, foldl_step_start rm ws fp post hpost _ (Or.inr ⟨m, rfl⟩)]

/-- Claim C6, counterexample: a matching directory rule followed by a mode
    marker resolves to the marker although a candidate was produced,
    refuting the claim that a marker never displaces a candidate. -/
theorem claim_C6_counterexample :
    candidateList noRegex none (some "/proj/a/f.js") rulesMarkerLast ≠ [] ∧
    resolveWorkingDirectory noRegex none (some "/proj/a/f.js") rulesMarkerLast
      = some (WorkingDirectoryValue.modeValue ModeEnum.auto) := by decide

/-- Claim C6, witness: a candidate after the marker displaces it; a
    marker after the last candidate-producing rule is returned when no
    candidate follows it. -/
theorem claim_C6_witness :
    resolveWorkingDirectory noRegex none (some "/proj/a/f.js")
      [WorkingDirectoryEntry.modeItem ModeEnum.auto,
       WorkingDirectoryEntry.directoryItem "/proj/a/" (some true)]
      = some (WorkingDirectoryValue.directoryValue "/proj/a/" true) ∧
    resolveWorkingDirectory noRegex none (some "/x/f.js")
      [WorkingDirectoryEntry.directoryItem "/proj/a/" (some true),
       WorkingDirectoryEntry.modeItem ModeEnum.auto]
      = some (WorkingDirectoryValue.modeValue ModeEnum.auto) := by
  constructor
  · have h := claim_C6_mode_marker_overwrites noRegex none (some "/proj/a/f.js") []
      [WorkingDirectoryEntry.directoryItem "/proj/a/" (some true)] ModeEnum.auto (by decide)
    exact h.2.trans (by decide)
  · have h := claim_C6_mode_marker_overwrites noRegex none (some "/x/f.js")
      [WorkingDirectoryEntry.directoryItem "/proj/a/" (some true)] [] ModeEnum.auto (by decide)
    exact h.2.trans (by decide)
